import Mathlib

/-!
Verification of the CSG core of ocmesh (`include/csg.h`).

The header declares the node hierarchy (`object`, `sphere_t`, `cube_t`,
`toplevel_t`, `union_t`, `intersection_t`, `difference_t`, `transform_t`),
the owning `scene` arena, and the inline builder functions
(`unite`, `intersect`, `subtract`, `transform`, `scale`, `rotate`,
`translate` and their axis variants).  The bodies of the virtual
`distance` and `dump` members are declared in the header but defined in a
translation unit that is not part of the sources; those are modelled from
the specification (each such definition says so in its doc comment).

Two views of the code are embedded:

* an expression view (`ocmesh.csg`): the CSG expression a chain of builder
  calls constructs, with the signed-distance semantics of §4.2–§4.5 of the
  specification;
* an arena view (`ocmesh.arena`): the `scene` object store, the toplevel
  registry, and the builder functions with their `assert` guards, where a
  failed `assert` (an abort) is modelled as `none`.

Scalars are modelled by `ℝ` (the C++ code uses `float`).
-/

namespace ocmesh

/-- A 3-component vector, modelling `glm::vec3`. -/
structure Vec3 where
  x : ℝ
  y : ℝ
  z : ℝ

/-- A 4×4 matrix in math (row, column) convention, modelling `glm::mat4`:
entry `mIJ` is row `I`, column `J` of the matrix that left-multiplies a
column vector. -/
structure Mat4 where
  m00 : ℝ
  m01 : ℝ
  m02 : ℝ
  m03 : ℝ
  m10 : ℝ
  m11 : ℝ
  m12 : ℝ
  m13 : ℝ
  m20 : ℝ
  m21 : ℝ
  m22 : ℝ
  m23 : ℝ
  m30 : ℝ
  m31 : ℝ
  m32 : ℝ
  m33 : ℝ

/-- Euclidean norm of a `Vec3` (the `glm::length` of the math library). -/
noncomputable def norm3 (p : Vec3) : ℝ :=
  Real.sqrt (p.x * p.x + p.y * p.y + p.z * p.z)

/-- Affine application of a 4×4 matrix to a 3-point: the point is extended
with homogeneous coordinate 1, multiplied, and the first three components
are kept (`glm::vec3(m * glm::vec4(p, 1))`). -/
noncomputable def apply4 (m : Mat4) (p : Vec3) : Vec3 :=
  ⟨m.m00 * p.x + m.m01 * p.y + m.m02 * p.z + m.m03,
   m.m10 * p.x + m.m11 * p.y + m.m12 * p.z + m.m13,
   m.m20 * p.x + m.m21 * p.y + m.m22 * p.z + m.m23⟩

/-- The scaling matrix `glm::scale(v)` of the math library:
`diag(v.x, v.y, v.z, 1)`. -/
def glmScale (v : Vec3) : Mat4 :=
  ⟨v.x, 0, 0, 0,
   0, v.y, 0, 0,
   0, 0, v.z, 0,
   0, 0, 0, 1⟩

/-- The translation matrix `glm::translate(v)` of the math library:
the identity with `v` in the fourth column. -/
def glmTranslate (v : Vec3) : Mat4 :=
  ⟨1, 0, 0, v.x,
   0, 1, 0, v.y,
   0, 0, 1, v.z,
   0, 0, 0, 1⟩

/-- The axis–angle rotation matrix `glm::rotate(angle, v)` of the math
library: the axis is normalized and the Rodrigues rotation matrix is
built from it. -/
noncomputable def glmRotate (angle : ℝ) (v : Vec3) : Mat4 :=
  let c := Real.cos angle
  let s := Real.sin angle
  let len := norm3 v
  let ax := v.x / len
  let ay := v.y / len
  let az := v.z / len
  ⟨c + (1 - c) * ax * ax, (1 - c) * ax * ay - s * az, (1 - c) * ax * az + s * ay, 0,
   (1 - c) * ay * ax + s * az, c + (1 - c) * ay * ay, (1 - c) * ay * az - s * ax, 0,
   (1 - c) * az * ax - s * ay, (1 - c) * az * ay + s * ax, c + (1 - c) * az * az, 0,
   0, 0, 0, 1⟩

/-- Componentwise negation, `-v` on `glm::vec3`. -/
noncomputable def vneg (v : Vec3) : Vec3 := ⟨-v.x, -v.y, -v.z⟩

/-- Componentwise division, `a / b` on `glm::vec3`. -/
noncomputable def vdiv (a b : Vec3) : Vec3 := ⟨a.x / b.x, a.y / b.y, a.z / b.z⟩

namespace csg

/-- The CSG expression built by a chain of builder calls: one constructor
per concrete node class of `csg.h` (`sphere_t`, `cube_t`, `union_t`,
`intersection_t`, `difference_t`, `transform_t`, `toplevel_t`), each
holding the fields its C++ class stores. -/
inductive CSG where
  | sphere (radius : ℝ)
  | cube (side : ℝ)
  | union (left right : CSG)
  | inter (left right : CSG)
  | diff (left right : CSG)
  | xform (matrix : Mat4) (child : CSG)
  | top (child : CSG) (material : Nat)

/-- Modelled from the spec: the bodies of the virtual `distance` members
are declared in `csg.h` but not defined in the available sources.
Following §4.2–§4.5 of the specification: `sphere` is `‖p‖ − radius`;
`cube` is the exact axis-aligned box SDF with half-extent `side/2` per
axis; `union` is `min`, `intersection` is `max`, `difference` is
`max(dl, −dr)` of the child distances; `transform` maps the query point
through the stored matrix before recursing; `toplevel` forwards to its
child. -/
noncomputable def distance : CSG → Vec3 → ℝ
  | .sphere r, p => norm3 p - r
  | .cube s, p =>
      let qx := |p.x| - s / 2
      let qy := |p.y| - s / 2
      let qz := |p.z| - s / 2
      norm3 ⟨max qx 0, max qy 0, max qz 0⟩ + min (max qx (max qy qz)) 0
  | .union l r, p => min (distance l p) (distance r p)
  | .inter l r, p => max (distance l p) (distance r p)
  | .diff l r, p => max (distance l p) (-(distance r p))
  | .xform m c, p => distance c (apply4 m p)
  | .top c _, p => distance c p

/-- The matrix a `transform_t` node stores (`transform_t::transform()`),
`none` on every other node. -/
def storedMatrix : CSG → Option Mat4
  | .xform m _ => some m
  | _ => none

/-- The binary builder `unite(left, right)`: builds a `union_t` node.
(The same-scene `assert` is treated in the arena view.) -/
def unite (left right : CSG) : CSG := .union left right

/-- The binary builder `intersect(left, right)`: builds an
`intersection_t` node. -/
def intersect (left right : CSG) : CSG := .inter left right

/-- The binary builder `subtract(left, right)`: builds a `difference_t`
node. -/
def subtract (left right : CSG) : CSG := .diff left right

/-- The builder `transform(node, matrix)`: builds a `transform_t` node
storing the supplied matrix unchanged. -/
def transform (node : CSG) (matrix : Mat4) : CSG := .xform matrix node

/-- The variadic `unite(node, args...)` of `csg.h`, with the trailing
arguments as a list: `unite(a, b, rest...) = unite(a, unite(b, rest...))`,
bottoming out in the binary overload. -/
def uniteN (node : CSG) : List CSG → CSG
  | [] => node
  | b :: rest => unite node (uniteN b rest)

/-- The variadic `intersect(node, args...)` of `csg.h`: it combines
`node` with `unite(args...)`, i.e. with the union of the remaining
arguments (the binary overload handles the two-argument case). -/
def intersectN (node : CSG) (b : CSG) (rest : List CSG) : CSG :=
  intersect node (uniteN b rest)

/-- The variadic `subtract(node, args...)` of `csg.h`: it combines
`node` with `unite(args...)`, i.e. subtracts the union of the remaining
arguments (the binary overload handles the two-argument case). -/
def subtractN (node : CSG) (b : CSG) (rest : List CSG) : CSG :=
  subtract node (uniteN b rest)

/-- The builder `scale(node, factors)`: asserts every component of
`factors` is non-zero (modelled as `none`), then delegates to
`transform` with `glm::scale(glm::vec3(1,1,1) / factors)`. -/
noncomputable def scale (node : CSG) (factors : Vec3) : Option CSG :=
  if factors.x = 0 ∨ factors.y = 0 ∨ factors.z = 0 then none
  else some (transform node (glmScale (vdiv ⟨1, 1, 1⟩ factors)))

/-- The builder `scale(node, factor)`: asserts `factor ≠ 0`, then calls
the vector overload with `{factor, factor, factor}`. -/
noncomputable def scaleU (node : CSG) (factor : ℝ) : Option CSG :=
  if factor = 0 then none else scale node ⟨factor, factor, factor⟩

/-- The builder `xscale(node, factor)`: asserts `factor ≠ 0`, then scales
by `{factor, 1, 1}`. -/
noncomputable def xscale (node : CSG) (factor : ℝ) : Option CSG :=
  if factor = 0 then none else scale node ⟨factor, 1, 1⟩

/-- The builder `yscale(node, factor)`: asserts `factor ≠ 0`, then scales
by `{1, factor, 1}`. -/
noncomputable def yscale (node : CSG) (factor : ℝ) : Option CSG :=
  if factor = 0 then none else scale node ⟨1, factor, 1⟩

/-- The builder `zscale(node, factor)`: asserts `factor ≠ 0`, then scales
by `{1, 1, factor}`. -/
noncomputable def zscale (node : CSG) (factor : ℝ) : Option CSG :=
  if factor = 0 then none else scale node ⟨1, 1, factor⟩

/-- The builder `rotate(node, angle, axis)`: delegates to `transform`
with `glm::rotate(-angle, axis)`. -/
noncomputable def rotate (node : CSG) (angle : ℝ) (axis : Vec3) : CSG :=
  transform node (glmRotate (-angle) axis)

/-- The builder `translate(node, offsets)`: delegates to `transform` with
`glm::translate(-offsets)`. -/
noncomputable def translate (node : CSG) (offsets : Vec3) : CSG :=
  transform node (glmTranslate (vneg offsets))

end csg

namespace arena

/-- A non-owning node handle, modelling an `object *`: which scene the
object belongs to (`object::scene()`, scenes identified by a number) and
its position in that scene's `_objects` store. -/
structure Ref where
  owner : Nat
  idx : Nat
  deriving DecidableEq

/-- The per-variant payload of a node, one case per concrete class of
`csg.h`; operands are held as positions in the owning scene's `_objects`
store (non-owning references). -/
inductive NodeData where
  | sphere (radius : ℝ)
  | cube (side : ℝ)
  | toplevel (child : Nat) (material : Nat)
  | union (left right : Nat)
  | inter (left right : Nat)
  | diff (left right : Nat)
  | xform (child : Nat) (m : Mat4)

/-- A stored node: the `object` base subobject (its `_scene` back
pointer, as the owning scene's identifier) together with the variant
payload. -/
structure Obj where
  owner : Nat
  data : NodeData

/-- The `scene` arena: its identity, the owned `_objects` store in
creation order, and the `_toplevels` registry holding the positions of
the registered `toplevel_t` nodes in registration order. -/
structure SceneSt where
  sid : Nat
  objects : List Obj
  toplevels : List Nat

/-- `scene::make<T>(args...)`: constructs the node with `this` as its
scene, appends it to `_objects`, and returns a reference to it. -/
def SceneSt.make (st : SceneSt) (d : NodeData) : Ref × SceneSt :=
  (⟨st.sid, st.objects.length⟩,
   { st with objects := st.objects ++ [⟨st.sid, d⟩] })

/-- `scene::sphere(radius)`: `make<sphere_t>(radius)`. -/
def SceneSt.sphere (st : SceneSt) (radius : ℝ) : Ref × SceneSt :=
  st.make (.sphere radius)

/-- `scene::cube(side)`: `make<cube_t>(side)`. -/
def SceneSt.cube (st : SceneSt) (side : ℝ) : Ref × SceneSt :=
  st.make (.cube side)

/-- `scene::toplevel(obj, material)`: makes a `toplevel_t` node wrapping
`obj` and pushes it onto `_toplevels`. -/
def SceneSt.toplevel (st : SceneSt) (obj : Ref) (material : Nat) : SceneSt :=
  let made := st.make (.toplevel obj.idx material)
  { made.2 with toplevels := made.2.toplevels ++ [made.1.idx] }

/-- `scene::size()`: the length of `_toplevels`. -/
def SceneSt.size (st : SceneSt) : Nat := st.toplevels.length

/-- A collection of scenes, identified by position; an `object *`'s
`->scene()` pointer is modelled as a position in this list. -/
abbrev World := List SceneSt

/-- Dereferencing `ref->scene()` and calling `make` on it: creates the
node in scene `s` of the world.  A dangling scene identifier (undefined
behaviour in the C++) is totalised as a no-op returning an arbitrary
reference. -/
def World.makeIn (w : World) (s : Nat) (d : NodeData) : Ref × World :=
  match w[s]? with
  | some st =>
      let made := st.make d
      (made.1, List.set w s made.2)
  | none => (⟨s, 0⟩, w)

/-- The free builder `unite(left, right)`: `assert(left->scene() ==
right->scene())` (a failed assert — an abort — is modelled as `none`),
then `left->scene()->make<union_t>(left, right)`. -/
def unite (w : World) (left right : Ref) : Option (Ref × World) :=
  if left.owner = right.owner then
    some (w.makeIn left.owner (.union left.idx right.idx))
  else none

/-- The free builder `intersect(left, right)`: same-scene `assert`, then
`left->scene()->make<intersection_t>(left, right)`. -/
def intersect (w : World) (left right : Ref) : Option (Ref × World) :=
  if left.owner = right.owner then
    some (w.makeIn left.owner (.inter left.idx right.idx))
  else none

/-- The free builder `subtract(left, right)`: same-scene `assert`, then
`left->scene()->make<difference_t>(left, right)`. -/
def subtract (w : World) (left right : Ref) : Option (Ref × World) :=
  if left.owner = right.owner then
    some (w.makeIn left.owner (.diff left.idx right.idx))
  else none

/-- The free builder `transform(node, matrix)`: no assert; stores the
matrix verbatim via `node->scene()->make<transform_t>(node, matrix)`. -/
def transform (w : World) (node : Ref) (matrix : Mat4) : Ref × World :=
  w.makeIn node.owner (.xform node.idx matrix)

/-- The free builder `scale(node, factors)` in the arena view: asserts
every component of `factors` non-zero, then delegates to `transform`
with `glm::scale(glm::vec3(1,1,1) / factors)`. -/
noncomputable def scale (w : World) (node : Ref) (factors : Vec3) :
    Option (Ref × World) :=
  if factors.x = 0 ∨ factors.y = 0 ∨ factors.z = 0 then none
  else some (transform w node (glmScale (vdiv ⟨1, 1, 1⟩ factors)))

/-- `scale(node, factor)` in the arena view: asserts `factor ≠ 0`, then
the vector overload with `{factor, factor, factor}`. -/
noncomputable def scaleU (w : World) (node : Ref) (factor : ℝ) :
    Option (Ref × World) :=
  if factor = 0 then none else scale w node ⟨factor, factor, factor⟩

/-- `xscale(node, factor)` in the arena view: asserts `factor ≠ 0`, then
scales by `{factor, 1, 1}`. -/
noncomputable def xscale (w : World) (node : Ref) (factor : ℝ) :
    Option (Ref × World) :=
  if factor = 0 then none else scale w node ⟨factor, 1, 1⟩

/-- `yscale(node, factor)` in the arena view: asserts `factor ≠ 0`, then
scales by `{1, factor, 1}`. -/
noncomputable def yscale (w : World) (node : Ref) (factor : ℝ) :
    Option (Ref × World) :=
  if factor = 0 then none else scale w node ⟨1, factor, 1⟩

/-- `zscale(node, factor)` in the arena view: asserts `factor ≠ 0`, then
scales by `{1, 1, factor}`. -/
noncomputable def zscale (w : World) (node : Ref) (factor : ℝ) :
    Option (Ref × World) :=
  if factor = 0 then none else scale w node ⟨1, 1, factor⟩

/-- One construction-phase call on a fixed scene: a factory method
(`sphere`, `cube`, `toplevel`) or a friend builder creating a combinator
or transform node in this scene (the same-scene success path of
`unite`/`intersect`/`subtract`/`transform`), with operands given by
their positions in the scene's store. -/
inductive SOp where
  | sphere (radius : ℝ)
  | cube (side : ℝ)
  | union (left right : Nat)
  | inter (left right : Nat)
  | diff (left right : Nat)
  | xform (child : Nat) (m : Mat4)
  | toplevel (child : Nat) (material : Nat)

/-- Apply one construction call to the scene. -/
def SceneSt.runOp (st : SceneSt) : SOp → SceneSt
  | .sphere r => (st.sphere r).2
  | .cube s => (st.cube s).2
  | .union l r => (st.make (.union l r)).2
  | .inter l r => (st.make (.inter l r)).2
  | .diff l r => (st.make (.diff l r)).2
  | .xform c m => (st.make (.xform c m)).2
  | .toplevel c m => st.toplevel ⟨st.sid, c⟩ m

/-- Apply a whole construction phase, first call first. -/
def SceneSt.runOps (st : SceneSt) : List SOp → SceneSt
  | [] => st
  | op :: ops => (st.runOp op).runOps ops

/-- The `toplevel` registrations a construction phase performs, in call
order: the wrapped object's position and the material of each. -/
def regs (ops : List SOp) : List (Nat × Nat) :=
  ops.filterMap fun
    | .toplevel c m => some (c, m)
    | _ => none

/-- What iterating the scene (`begin()`/`end()`) observes: for each entry
of `_toplevels` in order, the wrapped child position and material of the
`toplevel_t` node it points to (`none` for a dangling or non-toplevel
entry, which never arises). -/
def readToplevels (st : SceneSt) : List (Option (Nat × Nat)) :=
  st.toplevels.map fun i =>
    st.objects[i]?.bind fun o =>
      match o.data with
      | .toplevel c m => some (c, m)
      | _ => none

/-- The stream insertion `operator<<(std::ostream&, scene const&)`: for
each registered toplevel in order, dump it and append a newline.  The
per-node `dump` bodies are declared in `csg.h` but not defined in the
available sources; modelled from the spec, which makes `dump` a pure
textual projection of the node, here an arbitrary function `d` from the
node's position to its text.  The stream is the accumulated output
string; the scene is returned unchanged (it is passed `const`). -/
def sceneStream (d : Nat → String) (st : SceneSt) (out : String) :
    String × SceneSt :=
  (st.toplevels.foldl (fun acc i => acc ++ d i ++ "\n") out, st)

/-- Update one scene of the world in place, a no-op if the identifier is
dangling (undefined behaviour in the C++). -/
def World.inScene (w : World) (s : Nat) (f : SceneSt → SceneSt) : World :=
  match w[s]? with
  | some st => List.set w s (f st)
  | none => w

/-- One construction-phase call somewhere in the world: a factory method
on a named scene, or a free builder on node references (which find their
scene through the reference).  A builder whose `assert` fires aborts the
program; the world after that point is moot and modelled unchanged. -/
inductive WOp where
  | sphere (s : Nat) (radius : ℝ)
  | cube (s : Nat) (side : ℝ)
  | toplevel (s : Nat) (obj : Ref) (material : Nat)
  | unite (left right : Ref)
  | intersect (left right : Ref)
  | subtract (left right : Ref)
  | transform (node : Ref) (m : Mat4)

/-- Apply one construction call to the world. -/
def World.runOp (w : World) : WOp → World
  | .sphere s r => w.inScene s fun st => (st.sphere r).2
  | .cube s side => w.inScene s fun st => (st.cube side).2
  | .toplevel s obj m => w.inScene s fun st => st.toplevel obj m
  | .unite l r =>
      match unite w l r with
      | some p => p.2
      | none => w
  | .intersect l r =>
      match intersect w l r with
      | some p => p.2
      | none => w
  | .subtract l r =>
      match subtract w l r with
      | some p => p.2
      | none => w
  | .transform n m => (transform w n m).2

/-- Apply a whole construction phase to the world, first call first. -/
def World.runOps (w : World) : List WOp → World
  | [] => w
  | op :: ops => (w.runOp op).runOps ops

/-- Every node of every scene records that scene as its owner: its
`_scene` back pointer (`object::scene()`) names exactly the scene in
whose `_objects` store it lives. -/
def ownerInv (w : World) : Prop :=
  ∀ st ∈ w, ∀ o ∈ st.objects, o.owner = st.sid

/-- Scene identifiers agree with positions in the world, modelling that a
scene pointer dereferences to that very scene. -/
def wfWorld (w : World) : Prop :=
  ∀ i : Fin w.length, (w.get i).sid = i.val

end arena

/-- Modelled from the spec: distance evaluation threaded through the
scene state.  The bodies of the virtual `distance` members are not in
the available sources; §5 of the specification states that distance
evaluation has no internal mutable state and no side effects, so each
recursive call passes the scene state along and returns it with the
value.  The value cases follow §4.2–§4.5 as in `csg.distance`. -/
noncomputable def distanceRun (n : csg.CSG) (p : Vec3) (st : arena.SceneSt) :
    ℝ × arena.SceneSt :=
  match n with
  | .sphere r => (norm3 p - r, st)
  | .cube s =>
      let qx := |p.x| - s / 2
      let qy := |p.y| - s / 2
      let qz := |p.z| - s / 2
      (norm3 ⟨max qx 0, max qy 0, max qz 0⟩ + min (max qx (max qy qz)) 0, st)
  | .union l r =>
      let dl := distanceRun l p st
      let dr := distanceRun r p dl.2
      (min dl.1 dr.1, dr.2)
  | .inter l r =>
      let dl := distanceRun l p st
      let dr := distanceRun r p dl.2
      (max dl.1 dr.1, dr.2)
  | .diff l r =>
      let dl := distanceRun l p st
      let dr := distanceRun r p dl.2
      (max dl.1 (-dr.1), dr.2)
  | .xform m c => distanceRun c (apply4 m p) st
  | .top c _ => distanceRun c p st

/-! Helper lemmas about folded minima and maxima of distances, used for
the variadic builders. -/

/-- Prepending a `min` to a left fold of minima absorbs into the seed. -/
theorem min_foldl_distance (p : Vec3) (rest : List csg.CSG) : ∀ x y : ℝ,
    min x (rest.foldl (fun acc c => min acc (csg.distance c p)) y)
      = rest.foldl (fun acc c => min acc (csg.distance c p)) (min x y) := by
  induction rest with
  | nil => intro x y; rfl
  | cons c rest ih =>
      intro x y
      simp only [List.foldl_cons]
      rw [ih x (min y (csg.distance c p)), min_assoc]

/-- Prepending a `max` to a left fold of maxima absorbs into the seed. -/
theorem max_foldl_distance (p : Vec3) (rest : List csg.CSG) : ∀ x y : ℝ,
    max x (rest.foldl (fun acc c => max acc (-(csg.distance c p))) y)
      = rest.foldl (fun acc c => max acc (-(csg.distance c p))) (max x y) := by
  induction rest with
  | nil => intro x y; rfl
  | cons c rest ih =>
      intro x y
      simp only [List.foldl_cons]
      rw [ih x (max y (-(csg.distance c p))), max_assoc]

/-- Negating a left fold of minima gives the left fold of negated
maxima. -/
theorem neg_foldl_distance (p : Vec3) (rest : List csg.CSG) : ∀ y : ℝ,
    -(rest.foldl (fun acc c => min acc (csg.distance c p)) y)
      = rest.foldl (fun acc c => max acc (-(csg.distance c p))) (-y) := by
  induction rest with
  | nil => intro y; rfl
  | cons c rest ih =>
      intro y
      simp only [List.foldl_cons]
      rw [ih (min y (csg.distance c p)), neg_inf]

/-- The distance of the right-folded variadic union is the left-folded
minimum of the operand distances. -/
theorem distance_uniteN (p : Vec3) (rest : List csg.CSG) : ∀ b : csg.CSG,
    csg.distance (csg.uniteN b rest) p
      = rest.foldl (fun acc c => min acc (csg.distance c p)) (csg.distance b p) := by
  induction rest with
  | nil => intro b; rfl
  | cons c rest ih =>
      intro b
      show min (csg.distance b p) (csg.distance (csg.uniteN c rest) p) = _
      rw [ih c, min_foldl_distance, List.foldl_cons]

/-- C1: for nodes `A`, `B` and every query point `p`, the union node's
distance at `p` is `min(A.distance(p), B.distance(p))`, the intersection
node's is the `max`, and the difference node's is
`max(A.distance(p), -B.distance(p))`. -/
theorem c1_combinator_distance (A B : csg.CSG) (p : Vec3) :
    csg.distance (csg.unite A B) p = min (csg.distance A p) (csg.distance B p) ∧
    csg.distance (csg.intersect A B) p = max (csg.distance A p) (csg.distance B p) ∧
    csg.distance (csg.subtract A B) p
      = max (csg.distance A p) (-(csg.distance B p)) :=
  ⟨rfl, rfl, rfl⟩

/-- C2: the node built by `transform(c, M)` stores `M` verbatim, and its
distance at `p` is `c.distance(M · p)`: the stored matrix is applied to
the query point before recursing into the child. -/
theorem c2_transform_stores_matrix (c : csg.CSG) (M : Mat4) (p : Vec3) :
    csg.storedMatrix (csg.transform c M) = some M ∧
    csg.distance (csg.transform c M) p = csg.distance c (apply4 M p) :=
  ⟨rfl, rfl⟩

/-- C3: each convenience builder pre-inverts its parameter before
delegating to `transform`: `scale(n, f)` (for `f` with no zero
component) stores the scaling by the componentwise reciprocal `1/f`,
`rotate(n, angle, axis)` stores the rotation by `-angle` about `axis`,
and `translate(n, t)` stores the translation by `-t`. -/
theorem c3_builders_preinvert (n : csg.CSG) (f t axis : Vec3) (angle : ℝ)
    (hf : f.x ≠ 0 ∧ f.y ≠ 0 ∧ f.z ≠ 0) :
    csg.scale n f
      = some (csg.transform n (glmScale ⟨1 / f.x, 1 / f.y, 1 / f.z⟩)) ∧
    csg.rotate n angle axis = csg.transform n (glmRotate (-angle) axis) ∧
    csg.translate n t = csg.transform n (glmTranslate ⟨-t.x, -t.y, -t.z⟩) := by
  refine ⟨?_, rfl, rfl⟩
  simp [csg.scale, hf.1, hf.2.1, hf.2.2, vdiv]

/-- Witness for C3 at `f = (2, 4, 5)`, `t = (1, 2, 3)`, `angle = 1`,
`axis = (0, 0, 1)`. -/
theorem c3_builders_preinvert_witness :
    ((2 : ℝ) ≠ 0 ∧ (4 : ℝ) ≠ 0 ∧ (5 : ℝ) ≠ 0) ∧
    (csg.scale (.sphere 1) ⟨2, 4, 5⟩
        = some (csg.transform (.sphere 1) (glmScale ⟨1 / 2, 1 / 4, 1 / 5⟩)) ∧
      csg.rotate (.sphere 1) 1 ⟨0, 0, 1⟩
        = csg.transform (.sphere 1) (glmRotate (-1) ⟨0, 0, 1⟩) ∧
      csg.translate (.sphere 1) ⟨1, 2, 3⟩
        = csg.transform (.sphere 1) (glmTranslate ⟨-1, -2, -3⟩)) :=
  ⟨by norm_num,
   c3_builders_preinvert (.sphere 1) ⟨2, 4, 5⟩ ⟨1, 2, 3⟩ ⟨0, 0, 1⟩ 1
     (by norm_num)⟩

/-- C5: the sphere node's distance at `p` is the Euclidean norm of `p`
minus the radius; it is zero exactly when the norm equals the radius,
negative strictly inside and positive strictly outside. -/
theorem c5_sphere_distance (r : ℝ) (p : Vec3) (hr : 0 < r) :
    csg.distance (.sphere r) p = norm3 p - r ∧
    (csg.distance (.sphere r) p = 0 ↔ norm3 p = r) ∧
    (norm3 p < r → csg.distance (.sphere r) p < 0) ∧
    (r < norm3 p → 0 < csg.distance (.sphere r) p) := by
  refine ⟨rfl, ?_, ?_, ?_⟩
  · show norm3 p - r = 0 ↔ norm3 p = r
    exact sub_eq_zero
  · intro h
    show norm3 p - r < 0
    exact sub_neg.mpr h
  · intro h
    show 0 < norm3 p - r
    exact sub_pos.mpr h

/-- Witness for C5 at `r = 1`, `p = (0, 0, 0)`. -/
theorem c5_sphere_distance_witness :
    (0 : ℝ) < 1 ∧
    (csg.distance (.sphere 1) ⟨0, 0, 0⟩ = norm3 ⟨0, 0, 0⟩ - 1 ∧
      (csg.distance (.sphere 1) ⟨0, 0, 0⟩ = 0 ↔ norm3 ⟨0, 0, 0⟩ = 1) ∧
      (norm3 ⟨0, 0, 0⟩ < 1 → csg.distance (.sphere 1) ⟨0, 0, 0⟩ < 0) ∧
      (1 < norm3 ⟨0, 0, 0⟩ → 0 < csg.distance (.sphere 1) ⟨0, 0, 0⟩)) :=
  ⟨by norm_num, c5_sphere_distance 1 ⟨0, 0, 0⟩ (by norm_num)⟩

/-- The norm of the origin is zero. -/
theorem norm3_zero : norm3 ⟨0, 0, 0⟩ = 0 := by
  simp [norm3]

/-- C4, counterexample: the three-operand `intersect(a, b, c)` does not
build `intersect(a, intersect(b, c))` — its distance field differs from
the claimed n-ary `max`.  At spheres of radii `3`, `1`, `2` queried at
the origin, the built node (`intersect(a, unite(b, c))`) evaluates to
`max(-3, min(-1, -2)) = -2`, while `intersect(a, intersect(b, c))`
evaluates to `max(-3, max(-1, -2)) = -1`. -/
theorem c4_variadic_counterexample :
    csg.distance (csg.intersectN (.sphere 3) (.sphere 1) [.sphere 2]) ⟨0, 0, 0⟩
        = -2 ∧
    csg.distance
        (csg.intersect (.sphere 3) (csg.intersect (.sphere 1) (.sphere 2)))
        ⟨0, 0, 0⟩
        = -1 ∧
    csg.distance (csg.intersectN (.sphere 3) (.sphere 1) [.sphere 2]) ⟨0, 0, 0⟩
      ≠ max (csg.distance (.sphere 3) ⟨0, 0, 0⟩)
          (max (csg.distance (.sphere 1) ⟨0, 0, 0⟩)
            (csg.distance (.sphere 2) ⟨0, 0, 0⟩)) := by
  have h1 : csg.distance (csg.intersectN (.sphere 3) (.sphere 1) [.sphere 2])
      ⟨0, 0, 0⟩ = -2 := by
    show max (norm3 ⟨0, 0, 0⟩ - 3)
        (min (norm3 ⟨0, 0, 0⟩ - 1) (norm3 ⟨0, 0, 0⟩ - 2)) = -2
    rw [norm3_zero]
    norm_num
  have h2 : csg.distance
      (csg.intersect (.sphere 3) (csg.intersect (.sphere 1) (.sphere 2)))
      ⟨0, 0, 0⟩ = -1 := by
    show max (norm3 ⟨0, 0, 0⟩ - 3)
        (max (norm3 ⟨0, 0, 0⟩ - 1) (norm3 ⟨0, 0, 0⟩ - 2)) = -1
    rw [norm3_zero]
    norm_num
  refine ⟨h1, h2, ?_⟩
  rw [h1]
  show (-2 : ℝ) ≠ max (norm3 ⟨0, 0, 0⟩ - 3)
      (max (norm3 ⟨0, 0, 0⟩ - 1) (norm3 ⟨0, 0, 0⟩ - 2))
  rw [norm3_zero]
  norm_num

/-- C4, as amended: only the variadic `unite` right-folds its own
combinator; the variadic `intersect` and `subtract` combine their first
operand with the union of the remaining operands.  Consequently the
n-ary union's distance field is the n-ary minimum of the operand
distances (hence independent of grouping); the n-ary intersect's is
`max(d_a, min of the tail distances)`; and the n-ary subtract's is
`max(d_a, -(min of the tail distances))`, which coincides with the
left-folded pairwise difference `subtract(...(subtract(a, b), c)...)`. -/
theorem c4_variadic_amended (a b : csg.CSG) (rest : List csg.CSG) (p : Vec3) :
    csg.distance (csg.uniteN a (b :: rest)) p
      = min (csg.distance a p)
          (rest.foldl (fun acc c => min acc (csg.distance c p))
            (csg.distance b p)) ∧
    csg.distance (csg.intersectN a b rest) p
      = max (csg.distance a p)
          (rest.foldl (fun acc c => min acc (csg.distance c p))
            (csg.distance b p)) ∧
    csg.distance (csg.subtractN a b rest) p
      = max (csg.distance a p)
          (-(rest.foldl (fun acc c => min acc (csg.distance c p))
              (csg.distance b p))) ∧
    csg.distance (csg.subtractN a b rest) p
      = rest.foldl (fun acc c => max acc (-(csg.distance c p)))
          (max (csg.distance a p) (-(csg.distance b p))) := by
  have hu : csg.distance (csg.uniteN b rest) p
      = rest.foldl (fun acc c => min acc (csg.distance c p))
          (csg.distance b p) := distance_uniteN p rest b
  refine ⟨?_, ?_, ?_, ?_⟩
  · show min (csg.distance a p) (csg.distance (csg.uniteN b rest) p) = _
    rw [hu]
  · show max (csg.distance a p) (csg.distance (csg.uniteN b rest) p) = _
    rw [hu]
  · show max (csg.distance a p) (-(csg.distance (csg.uniteN b rest) p)) = _
    rw [hu]
  · show max (csg.distance a p) (-(csg.distance (csg.uniteN b rest) p)) = _
    rw [hu, neg_foldl_distance, max_foldl_distance]

/-- C6: combining nodes owned by two distinct scenes trips the fail-fast
`assert` in `unite`, `intersect` and `subtract` (modelled as `none`,
never a constructed node), and every `scale` variant trips its `assert`
on a zero factor component; neither is a recoverable error value. -/
theorem c6_fail_fast (w : arena.World) (l r n : arena.Ref) (f : Vec3) :
    (l.owner ≠ r.owner →
      arena.unite w l r = none ∧
      arena.intersect w l r = none ∧
      arena.subtract w l r = none) ∧
    ((f.x = 0 ∨ f.y = 0 ∨ f.z = 0) → arena.scale w n f = none) ∧
    arena.scaleU w n 0 = none ∧
    arena.xscale w n 0 = none ∧
    arena.yscale w n 0 = none ∧
    arena.zscale w n 0 = none := by
  constructor
  · intro h
    exact ⟨by simp [arena.unite, h], by simp [arena.intersect, h],
           by simp [arena.subtract, h]⟩
  constructor
  · intro h
    simp [arena.scale, h]
  exact ⟨by simp [arena.scaleU], by simp [arena.xscale],
         by simp [arena.yscale], by simp [arena.zscale]⟩

/-- Witness for C6: two single-scene worlds-worth of refs with owners
`0` and `1`, and a zero `x` scaling component. -/
theorem c6_fail_fast_witness :
    arena.unite [] ⟨0, 0⟩ ⟨1, 0⟩ = none ∧
    arena.scale [] ⟨0, 0⟩ ⟨0, 1, 1⟩ = none :=
  ⟨((c6_fail_fast [] ⟨0, 0⟩ ⟨1, 0⟩ ⟨0, 0⟩ ⟨0, 1, 1⟩).1 (by decide)).1,
   (c6_fail_fast [] ⟨0, 0⟩ ⟨1, 0⟩ ⟨0, 0⟩ ⟨0, 1, 1⟩).2.1 (Or.inl rfl)⟩

/-- C8: streaming a scene produces exactly the concatenation of its
toplevel nodes' dumps in registration order, each followed by one
newline appended to the prior stream contents, and leaves the scene
unchanged. -/
theorem c8_scene_stream (d : Nat → String) (st : arena.SceneSt)
    (out : String) :
    (arena.sceneStream d st out).1
      = out ++ String.join (st.toplevels.map fun i => d i ++ "\n") ∧
    (arena.sceneStream d st out).2 = st := by
  refine ⟨?_, rfl⟩
  show st.toplevels.foldl (fun acc i => acc ++ d i ++ "\n") out = _
  induction st.toplevels generalizing out with
  | nil => simp [String.join]
  | cons i L ih =>
      simp only [List.foldl_cons, List.map_cons]
      rw [ih]
      have hj : String.join ((d i ++ "\n") :: L.map fun j => d j ++ "\n")
          = (d i ++ "\n") ++ String.join (L.map fun j => d j ++ "\n") := by
        simp [String.join_eq, String.ext_iff]
      rw [hj, ← String.append_assoc, ← String.append_assoc]

/-- C9: distance evaluation returns the scene state unchanged, its value
does not depend on the scene state, and evaluating twice in sequence
gives the same value both times. -/
theorem c9_distance_pure (n : csg.CSG) (p : Vec3) (st : arena.SceneSt) :
    (distanceRun n p st).2 = st ∧
    (distanceRun n p st).1 = csg.distance n p ∧
    (distanceRun n p ((distanceRun n p st).2)).1 = (distanceRun n p st).1 := by
  have key : ∀ (m : csg.CSG) (q : Vec3) (s : arena.SceneSt),
      (distanceRun m q s).2 = s ∧ (distanceRun m q s).1 = csg.distance m q := by
    intro m
    induction m with
    | sphere r => intro q s; exact ⟨rfl, rfl⟩
    | cube side => intro q s; exact ⟨rfl, rfl⟩
    | union l r ihl ihr =>
        intro q s
        constructor
        · show (distanceRun r q (distanceRun l q s).2).2 = s
          rw [(ihl q s).1, (ihr q s).1]
        · show min (distanceRun l q s).1
              (distanceRun r q (distanceRun l q s).2).1 = _
          rw [(ihl q s).1, (ihl q s).2, (ihr q s).2]
          rfl
    | inter l r ihl ihr =>
        intro q s
        constructor
        · show (distanceRun r q (distanceRun l q s).2).2 = s
          rw [(ihl q s).1, (ihr q s).1]
        · show max (distanceRun l q s).1
              (distanceRun r q (distanceRun l q s).2).1 = _
          rw [(ihl q s).1, (ihl q s).2, (ihr q s).2]
          rfl
    | diff l r ihl ihr =>
        intro q s
        constructor
        · show (distanceRun r q (distanceRun l q s).2).2 = s
          rw [(ihl q s).1, (ihr q s).1]
        · show max (distanceRun l q s).1
              (-(distanceRun r q (distanceRun l q s).2).1) = _
          rw [(ihl q s).1, (ihl q s).2, (ihr q s).2]
          rfl
    | xform m c ih =>
        intro q s
        exact ⟨(ih (apply4 m q) s).1, (ih (apply4 m q) s).2⟩
    | top c material ih =>
        intro q s
        exact ⟨(ih q s).1, (ih q s).2⟩
  refine ⟨(key n p st).1, (key n p st).2, ?_⟩
  rw [(key n p st).1]

/-! Machinery for the toplevel-registry claim: indices registered in
`_toplevels` stay within the object store, and each construction call
either leaves the registry reading unchanged or appends exactly the new
registration. -/

/-- Every registered toplevel index points into the object store. -/
def boundedTl (st : arena.SceneSt) : Prop :=
  ∀ i ∈ st.toplevels, i < st.objects.length

/-- `make` does not disturb what the registry reads: the registered
indices are unchanged and their lookups land before the appended node. -/
theorem readToplevels_make (st : arena.SceneSt) (d : arena.NodeData)
    (hb : boundedTl st) :
    arena.readToplevels (st.make d).2 = arena.readToplevels st := by
  apply List.map_congr_left
  intro i hi
  have hlook : (st.make d).2.objects[i]? = st.objects[i]? := by
    show (st.objects ++ [⟨st.sid, d⟩])[i]? = st.objects[i]?
    exact List.getElem?_append_left (hb i hi)
  rw [hlook]

/-- `make` preserves the registry bound. -/
theorem boundedTl_make (st : arena.SceneSt) (d : arena.NodeData)
    (hb : boundedTl st) : boundedTl (st.make d).2 := by
  intro i hi
  calc i < st.objects.length := hb i hi
    _ ≤ (st.make d).2.objects.length := by
        simp [arena.SceneSt.make]

/-- Registering a toplevel appends exactly the new entry, with its child
and material, to what the registry reads. -/
theorem readToplevels_toplevel (st : arena.SceneSt) (obj : arena.Ref)
    (material : Nat) (hb : boundedTl st) :
    arena.readToplevels (st.toplevel obj material)
      = arena.readToplevels st ++ [some (obj.idx, material)] := by
  show (st.toplevels ++ [st.objects.length]).map _ = _
  rw [List.map_append]
  congr 1
  · exact readToplevels_make st (.toplevel obj.idx material) hb
  · show [((st.objects ++ [⟨st.sid, .toplevel obj.idx material⟩])[st.objects.length]?).bind _]
        = [some (obj.idx, material)]
    rw [List.getElem?_concat_length]
    rfl

/-- Registering a toplevel preserves the registry bound. -/
theorem boundedTl_toplevel (st : arena.SceneSt) (obj : arena.Ref)
    (material : Nat) (hb : boundedTl st) :
    boundedTl (st.toplevel obj material) := by
  intro i hi
  have hi' : i ∈ st.toplevels ++ [st.objects.length] := hi
  have hlen : (st.toplevel obj material).objects.length
      = st.objects.length + 1 := by
    show (st.objects ++ ([⟨st.sid, .toplevel obj.idx material⟩] :
      List arena.Obj)).length = _
    simp
  rw [hlen]
  rcases List.mem_append.mp hi' with h | h
  · exact Nat.lt_succ_of_lt (hb i h)
  · rw [List.mem_singleton.mp h]
    exact Nat.lt_succ_self _

/-- Running a construction phase: what the registry reads afterwards is
what it read before followed by exactly the registrations the phase
performed, in order; the toplevel count grows by the number of
registrations; and the registry bound is preserved. -/
theorem runOps_registry (ops : List arena.SOp) : ∀ st : arena.SceneSt,
    boundedTl st →
    arena.readToplevels (st.runOps ops)
        = arena.readToplevels st ++ (arena.regs ops).map some
      ∧ (st.runOps ops).size = st.size + (arena.regs ops).length
      ∧ boundedTl (st.runOps ops) := by
  induction ops with
  | nil =>
      intro st hb
      exact ⟨(List.append_nil _).symm, rfl, hb⟩
  | cons op ops ih =>
      intro st hb
      have key : ∀ d : arena.NodeData,
          arena.readToplevels (((st.make d).2).runOps ops)
              = arena.readToplevels st ++ (arena.regs ops).map some
            ∧ (((st.make d).2).runOps ops).size
              = st.size + (arena.regs ops).length
            ∧ boundedTl (((st.make d).2).runOps ops) := by
        intro d
        obtain ⟨h1, h2, h3⟩ := ih ((st.make d).2) (boundedTl_make st d hb)
        exact ⟨by rw [h1, readToplevels_make st d hb], h2, h3⟩
      cases op with
      | sphere r => exact key (.sphere r)
      | cube s => exact key (.cube s)
      | union l r => exact key (.union l r)
      | inter l r => exact key (.inter l r)
      | diff l r => exact key (.diff l r)
      | xform c m => exact key (.xform c m)
      | toplevel c m =>
          obtain ⟨h1, h2, h3⟩ :=
            ih (st.toplevel ⟨st.sid, c⟩ m) (boundedTl_toplevel st ⟨st.sid, c⟩ m hb)
          refine ⟨?_, ?_, h3⟩
          · show arena.readToplevels ((st.toplevel ⟨st.sid, c⟩ m).runOps ops) = _
            rw [h1, readToplevels_toplevel st ⟨st.sid, c⟩ m hb,
              List.append_assoc]
            rfl
          · show ((st.toplevel ⟨st.sid, c⟩ m).runOps ops).size = _
            rw [h2]
            show (st.toplevel ⟨st.sid, c⟩ m).size + (arena.regs ops).length = _
            have hsz : (st.toplevel ⟨st.sid, c⟩ m).size = st.size + 1 := by
              show (st.toplevels ++ [st.objects.length]).length = _
              simp [arena.SceneSt.size]
            rw [hsz]
            show st.size + 1 + (arena.regs ops).length
              = st.size + ((c, m) :: arena.regs ops).length
            simp [Nat.add_assoc, Nat.add_comm 1]

/-- C7: starting from an empty scene, after any interleaving of node
construction and `toplevel` registration, iterating the scene yields
exactly the registered toplevel entries — each with its wrapped object
and material — in registration order, and `size()` is exactly the
number of registrations made. -/
theorem c7_toplevel_registry (sid : Nat) (ops : List arena.SOp) :
    arena.readToplevels (arena.SceneSt.runOps ⟨sid, [], []⟩ ops)
        = (arena.regs ops).map some ∧
    (arena.SceneSt.runOps ⟨sid, [], []⟩ ops).size = (arena.regs ops).length := by
  obtain ⟨h1, h2, _⟩ := runOps_registry ops ⟨sid, [], []⟩ (by intro i hi; cases hi)
  refine ⟨h1, ?_⟩
  rw [h2]
  show 0 + (arena.regs ops).length = _
  rw [Nat.zero_add]

/-! Machinery for the scene-ownership invariant. -/

/-- A world lookup lands on the scene with that identity. -/
theorem wfWorld_lookup (w : arena.World) (hwf : arena.wfWorld w) (s : Nat)
    (st : arena.SceneSt) (h : w[s]? = some st) : st.sid = s := by
  obtain ⟨hs, hg⟩ := List.getElem?_eq_some.mp h
  have := hwf ⟨s, hs⟩
  rw [List.get_eq_getElem, hg] at this
  exact this

/-- `make` stamps the freshly built node with the constructing scene. -/
theorem make_own (st : arena.SceneSt) (d : arena.NodeData)
    (h : ∀ o ∈ st.objects, o.owner = st.sid) :
    ∀ o ∈ (st.make d).2.objects, o.owner = (st.make d).2.sid := by
  intro o ho
  have ho' : o ∈ st.objects ++ [⟨st.sid, d⟩] := ho
  rcases List.mem_append.mp ho' with h1 | h1
  · exact h o h1
  · rw [List.mem_singleton.mp h1]
    rfl

/-- Creating a node somewhere in the world preserves the ownership
invariant. -/
theorem makeIn_own (w : arena.World) (s : Nat) (d : arena.NodeData)
    (hw : arena.ownerInv w) : arena.ownerInv (w.makeIn s d).2 := by
  intro st' hst'
  unfold arena.World.makeIn at hst'
  split at hst'
  case h_1 stS hS =>
    rcases List.mem_or_eq_of_mem_set hst' with h1 | h1
    · exact hw st' h1
    · rw [h1]
      exact make_own stS d (hw stS (List.getElem?_mem hS))
  case h_2 => exact hw st' hst'

/-- Updating one scene in place with an ownership-preserving function
preserves the ownership invariant. -/
theorem inScene_own (w : arena.World) (s : Nat)
    (f : arena.SceneSt → arena.SceneSt) (hw : arena.ownerInv w)
    (hf : ∀ st : arena.SceneSt, (∀ o ∈ st.objects, o.owner = st.sid) →
      ∀ o ∈ (f st).objects, o.owner = (f st).sid) :
    arena.ownerInv (w.inScene s f) := by
  intro st' hst'
  unfold arena.World.inScene at hst'
  split at hst'
  case h_1 stS hS =>
    rcases List.mem_or_eq_of_mem_set hst' with h1 | h1
    · exact hw st' h1
    · rw [h1]
      exact hf stS (hw stS (List.getElem?_mem hS))
  case h_2 => exact hw st' hst'

/-- Every single construction call preserves the ownership invariant. -/
theorem runOp_own (w : arena.World) (op : arena.WOp)
    (hw : arena.ownerInv w) : arena.ownerInv (w.runOp op) := by
  cases op with
  | sphere s r => exact inScene_own w s _ hw fun st h => make_own st _ h
  | cube s side => exact inScene_own w s _ hw fun st h => make_own st _ h
  | toplevel s obj m => exact inScene_own w s _ hw fun st h => make_own st _ h
  | unite l r =>
      show arena.ownerInv
        (match arena.unite w l r with | some p => p.2 | none => w)
      unfold arena.unite
      by_cases hc : l.owner = r.owner
      · rw [if_pos hc]
        exact makeIn_own w l.owner _ hw
      · rw [if_neg hc]
        exact hw
  | intersect l r =>
      show arena.ownerInv
        (match arena.intersect w l r with | some p => p.2 | none => w)
      unfold arena.intersect
      by_cases hc : l.owner = r.owner
      · rw [if_pos hc]
        exact makeIn_own w l.owner _ hw
      · rw [if_neg hc]
        exact hw
  | subtract l r =>
      show arena.ownerInv
        (match arena.subtract w l r with | some p => p.2 | none => w)
      unfold arena.subtract
      by_cases hc : l.owner = r.owner
      · rw [if_pos hc]
        exact makeIn_own w l.owner _ hw
      · rw [if_neg hc]
        exact hw
  | transform n m => exact makeIn_own w n.owner _ hw

/-- Running a construction phase preserves the ownership invariant. -/
theorem runOps_own (ops : List arena.WOp) : ∀ w : arena.World,
    arena.ownerInv w → arena.ownerInv (w.runOps ops) := by
  induction ops with
  | nil => intro w hw; exact hw
  | cons op ops ih => intro w hw; exact ih (w.runOp op) (runOp_own w op hw)

/-- C10: every node a factory call ever creates records its constructing
scene — after any construction phase each stored node's `_scene` field
names exactly the scene whose store holds it; the reference `make`
returns carries the constructing scene; and a combinator built by a
friend builder is owned by the common scene of its two operands. -/
theorem c10_nodes_record_scene (w : arena.World) (ops : List arena.WOp)
    (st : arena.SceneSt) (d : arena.NodeData) (l r : arena.Ref)
    (q : arena.Ref × arena.World)
    (hwf : arena.wfWorld w) (hown : arena.ownerInv w) :
    arena.ownerInv (w.runOps ops) ∧
    ((st.make d).1).owner = st.sid ∧
    (arena.unite w l r = some q →
      q.1.owner = l.owner ∧ q.1.owner = r.owner) := by
  refine ⟨runOps_own ops w hown, rfl, ?_⟩
  intro h
  unfold arena.unite at h
  by_cases hc : l.owner = r.owner
  · rw [if_pos hc] at h
    have hq : q = w.makeIn l.owner (.union l.idx r.idx) :=
      (Option.some.injEq _ _).mp h.symm
    have howner : q.1.owner = l.owner := by
      rw [hq]
      unfold arena.World.makeIn
      split
      case h_1 stS hS => exact wfWorld_lookup w hwf l.owner stS hS
      case h_2 => rfl
    exact ⟨howner, howner.trans hc⟩
  · rw [if_neg hc] at h
    cases h

/-- Witness for C10: a world of one empty scene, one `unite` call on two
references into it, and the `make` stamp at a concrete scene state. -/
theorem c10_nodes_record_scene_witness :
    arena.wfWorld [⟨0, [], []⟩] ∧ arena.ownerInv [⟨0, [], []⟩] ∧
    (arena.ownerInv
        (arena.World.runOps [⟨0, [], []⟩] [.unite ⟨0, 0⟩ ⟨0, 0⟩]) ∧
      ((arena.SceneSt.make ⟨0, [], []⟩ (.union 0 0)).1).owner
        = (⟨0, [], []⟩ : arena.SceneSt).sid ∧
      (arena.unite [⟨0, [], []⟩] ⟨0, 0⟩ ⟨0, 0⟩
          = some (⟨0, 0⟩, [⟨0, [⟨0, .union 0 0⟩], []⟩]) →
        (⟨0, 0⟩ : arena.Ref).owner = (⟨0, 0⟩ : arena.Ref).owner ∧
        (⟨0, 0⟩ : arena.Ref).owner = (⟨0, 0⟩ : arena.Ref).owner)) :=
  ⟨(by intro i; fin_cases i; rfl),
   (by
     intro st hst o ho
     rw [List.mem_singleton.mp hst] at ho
     cases ho),
   c10_nodes_record_scene [⟨0, [], []⟩] [.unite ⟨0, 0⟩ ⟨0, 0⟩]
     ⟨0, [], []⟩ (.union 0 0) ⟨0, 0⟩ ⟨0, 0⟩
     (⟨0, 0⟩, [⟨0, [⟨0, .union 0 0⟩], []⟩])
     (by intro i; fin_cases i; rfl)
     (by
       intro st hst o ho
       rw [List.mem_singleton.mp hst] at ho
       cases ho)⟩

end ocmesh
